import Mathlib

/-!
Verification of the janus-go identity-federation helper.

Shallow embedding conventions:
* Go strings are modelled as Lean `String`s whose characters stand for bytes
  (all inputs of interest are ASCII, where Go byte length and Lean character
  count coincide).
* A Go function returning `(T, error)` is modelled as `Except GoError T`;
  a function that may additionally panic is modelled as `GoResult T`.
* External effects (metadata server, environment variables, OS hostname,
  HTTP, AWS SDK) are passed in as explicit oracle values, so each embedded
  function is a pure function of its inputs and its environment.
-/

namespace Janus

/-- Result of `ctx.Err()`: `context.Canceled` or `context.DeadlineExceeded`. -/
inductive CtxErr where
  | canceled
  | deadlineExceeded
deriving DecidableEq, Repr

/-- Go `error` values as produced by this code base: the two context errors,
plain errors built with `fmt.Errorf` without a `%w` verb, and wrapped errors
built with `fmt.Errorf("...: %w", cause)`. -/
inductive GoError where
  | ctxCanceled
  | ctxDeadlineExceeded
  | message (msg : String)
  | wrap (msg : String) (cause : GoError)
deriving DecidableEq, Repr

/-- The `error` value a context error turns into when returned directly. -/
def CtxErr.toError : CtxErr → GoError
  | .canceled => .ctxCanceled
  | .deadlineExceeded => .ctxDeadlineExceeded

/-- A `context.Context`, reduced to the observable its callees consult:
the value of `ctx.Err()` (which is fixed for the duration of one embedded
call, the embedding being pure). -/
structure Ctx where
  err : Option CtxErr
deriving DecidableEq, Repr

/-- Outcome of running a Go function that returns `(T, error)` and may
also panic. -/
inductive GoResult (α : Type) where
  | ok (val : α)
  | error (err : GoError)
  | panic (msg : String)
deriving DecidableEq, Repr

/-- The responses the GCP metadata server gives to the two requests this
program makes, modelled as fixed oracle values. -/
structure MetadataClient where
  projectID : Except GoError String
  hostname : Except GoError String

/-- Embeds `contextAwareMetadataClient.ProjectIDWithContext`: check
`ctx.Err()` first, then delegate to the underlying client. -/
def ProjectIDWithContext (ctx : Ctx) (c : MetadataClient) : Except GoError String :=
  match ctx.err with
  | some e => .error e.toError
  | none => c.projectID

/-- Embeds `contextAwareMetadataClient.HostnameWithContext`: check
`ctx.Err()` first, then delegate to the underlying client. -/
def HostnameWithContext (ctx : Ctx) (c : MetadataClient) : Except GoError String :=
  match ctx.err with
  | some e => .error e.toError
  | none => c.hostname

/-- Embeds `gcp.CreateSessionIdentifier`: fetch project ID and hostname,
then evaluate `fmt.Sprintf("%s-%s", projectID, hostname)[:32]`.  The Go
slice expression `s[:32]` yields the first 32 bytes when `len(s) >= 32`
and panics with a slice-bounds error otherwise. -/
def CreateSessionIdentifier (ctx : Ctx) (c : MetadataClient) : GoResult String :=
  match ProjectIDWithContext ctx c with
  | .error err => .error (.wrap "could not fetch ProjectID from GCP metadata server" err)
  | .ok projectID =>
    match HostnameWithContext ctx c with
    | .error err => .error (.wrap "could not fetch Hostname from GCP metadata server" err)
    | .ok hostname =>
      let joined := projectID ++ "-" ++ hostname
      if 32 ≤ joined.length then .ok (String.mk (joined.data.take 32))
      else .panic "runtime error: slice bounds out of range"

/-- Embeds `gcp.GetSessionIdentifier`.  `envSessionID` is the value of the
`AWS_SESSION_IDENTIFIER` environment variable (`""` when unset, as
`os.Getenv` reports), and `osHostname` is the outcome of `os.Hostname()`. -/
def GetSessionIdentifier (ctx : Ctx) (sessionIdFlag : String) (c : MetadataClient)
    (envSessionID : String) (osHostname : Except GoError String) : GoResult String :=
  match ctx.err with
  | some e => .error e.toError
  | none =>
    if sessionIdFlag ≠ "" then .ok sessionIdFlag
    else if envSessionID ≠ "" then .ok envSessionID
    else
      match ctx.err with
      | some e => .error e.toError
      | none =>
        match CreateSessionIdentifier ctx c with
        | .ok sessionId => .ok sessionId
        | .panic msg => .panic msg
        | .error _ =>
          match ctx.err with
          | some e => .error e.toError
          | none =>
            match osHostname with
            | .error err => .error (.wrap "could not determine session identifier" err)
            | .ok hostname => .ok hostname

/-- Characters allowed in the role-name segment by the source regex
character class `[a-zA-Z0-9+=,.@\-_/]`. -/
def isArnNameChar (c : Char) : Bool :=
  c.isAlpha || c.isDigit || c = '+' || c = '=' || c = ',' || c = '.' ||
    c = '@' || c = '-' || c = '_' || c = '/'

/-- Consume an exact literal from the front of the input; `some rest` on
success, `none` when the input does not start with the literal. -/
def chompLit : List Char → List Char → Option (List Char)
  | [], input => some input
  | _ :: _, [] => none
  | p :: ps, c :: cs => if c = p then chompLit ps cs else none

/-- Matches the regex tail `\d{12}:role\/[a-zA-Z0-9+=,.@\-_/]+$`:
exactly 12 digits (the 13th character must be the `:` of `:role/`),
then `:role/`, then a non-empty run of name characters to the end. -/
def matchesArnTail (r : List Char) : Bool :=
  if 12 ≤ r.length then
    (r.take 12).all Char.isDigit &&
    (match chompLit (":role/".data) (r.drop 12) with
     | none => false
     | some nm => !nm.isEmpty && nm.all isArnNameChar)
  else false

/-- Matches one partition alternative followed by `:iam::` and the tail. -/
def matchesArnPat (r1 : List Char) (p : String) : Bool :=
  match chompLit (p.data ++ ":iam::".data) r1 with
  | none => false
  | some r2 => matchesArnTail r2

/-- Embeds `arnPattern.MatchString` for the anchored source regex
`^arn:(aws|aws-cn|aws-us-gov):iam::\d{12}:role\/[a-zA-Z0-9+=,.@\-_/]+$`;
the three-way alternation is the disjunction of the three alternatives,
exactly as for the regex automaton. -/
def arnPattern (s : String) : Bool :=
  match chompLit ("arn:".data) s.data with
  | none => false
  | some r1 =>
    matchesArnPat r1 "aws" || matchesArnPat r1 "aws-cn" || matchesArnPat r1 "aws-us-gov"

/-- Embeds `types.ValidateRoleArn`. -/
def ValidateRoleArn (arn : String) : Except GoError Unit :=
  if arn = "" then .error (.message "role ARN cannot be empty")
  else if !(arnPattern arn) then
    .error (.message ("invalid AWS role ARN format: " ++ arn ++
      " (expected format: arn:aws:iam::123456789012:role/RoleName)"))
  else .ok ()

/-- Valid AWS regions recognised by `types.validAWSRegions` (the map keys). -/
def validAWSRegions : List String :=
  ["us-east-1", "us-east-2", "us-west-1", "us-west-2", "af-south-1",
   "ap-east-1", "ap-south-1", "ap-south-2", "ap-northeast-1", "ap-northeast-2",
   "ap-northeast-3", "ap-southeast-1", "ap-southeast-2", "ap-southeast-3",
   "ap-southeast-4", "ca-central-1", "ca-west-1", "eu-central-1", "eu-central-2",
   "eu-west-1", "eu-west-2", "eu-west-3", "eu-north-1", "eu-south-1",
   "eu-south-2", "me-south-1", "me-central-1", "sa-east-1", "us-gov-east-1",
   "us-gov-west-1", "cn-north-1", "cn-northwest-1", "il-central-1"]

/-- ASCII whitespace as recognised by `unicode.IsSpace` (the inputs of
interest are ASCII). -/
def isSpaceByte (c : Char) : Bool :=
  c = ' ' || c = '\t' || c = '\n' || c = '\r' || c = '\x0b' || c = '\x0c'

/-- Models `strings.TrimSpace` on ASCII input. -/
def trimSpace (s : String) : String :=
  String.mk (((s.data.dropWhile isSpaceByte).reverse.dropWhile isSpaceByte).reverse)

/-- Models `strings.ToLower` on ASCII input. -/
def toLowerStr (s : String) : String :=
  String.mk (s.data.map (fun c => if 'A' ≤ c ∧ c ≤ 'Z' then Char.ofNat (c.toNat + 32) else c))

/-- Embeds `types.ValidateSTSRegion`: reject empty, normalise with
`strings.ToLower(strings.TrimSpace(region))`, then test membership in the
region set. -/
def ValidateSTSRegion (region : String) : Except GoError Unit :=
  if region = "" then .error (.message "STS region cannot be empty")
  else
    let normalizedRegion := toLowerStr (trimSpace region)
    if validAWSRegions.contains normalizedRegion then .ok ()
    else .error (.message ("invalid AWS region: " ++ region ++
      " (see https://docs.aws.amazon.com/general/latest/gr/rande.html for valid regions)"))

/-- The claim's grammar, written independently of the matcher: the string
is `arn:<partition>:iam::<12 digits>:role/<name>` with `<partition>` one of
the three supported partitions and `<name>` a non-empty run of characters
from the permitted set. -/
def RoleArnSpec (s : String) : Prop :=
  ∃ p a n : List Char,
    (p = "aws".data ∨ p = "aws-cn".data ∨ p = "aws-us-gov".data) ∧
    a.length = 12 ∧ a.all Char.isDigit = true ∧
    n ≠ [] ∧ n.all isArnNameChar = true ∧
    s.data = "arn:".data ++ (p ++ (":iam::".data ++ (a ++ (":role/".data ++ n))))

theorem chompLit_eq_some (pat : List Char) :
    ∀ (input r : List Char), chompLit pat input = some r ↔ input = pat ++ r := by
  induction pat with
  | nil => intro input r; simp [chompLit]
  | cons p ps ih =>
    intro input r
    cases input with
    | nil => simp [chompLit]
    | cons c cs =>
      by_cases hc : c = p
      · subst hc
        simp [chompLit, ih]
      · simp [chompLit, hc]

theorem matchesArnTail_eq_true (r : List Char) :
    matchesArnTail r = true ↔
      ∃ a n : List Char, a.length = 12 ∧ a.all Char.isDigit = true ∧
        n ≠ [] ∧ n.all isArnNameChar = true ∧ r = a ++ ":role/".data ++ n := by
  constructor
  · intro h
    unfold matchesArnTail at h
    by_cases hl : 12 ≤ r.length
    · rw [if_pos hl] at h
      rcases hchomp : chompLit (":role/".data) (r.drop 12) with _ | nm
      · rw [hchomp] at h; simp at h
      · rw [hchomp] at h
        simp only [Bool.and_eq_true, Bool.not_eq_true', List.isEmpty_eq_false] at h
        obtain ⟨hd, hne, hall⟩ := h
        refine ⟨r.take 12, nm, ?_, hd, hne, hall, ?_⟩
        · rw [List.length_take]; omega
        · have hdrop := (chompLit_eq_some (":role/".data) (r.drop 12) nm).mp hchomp
          calc r = r.take 12 ++ r.drop 12 := (List.take_append_drop 12 r).symm
            _ = r.take 12 ++ (":role/".data ++ nm) := by rw [hdrop]
            _ = r.take 12 ++ ":role/".data ++ nm := by rw [List.append_assoc]
    · rw [if_neg hl] at h; exact absurd h (by simp)
  · rintro ⟨a, nm, ha, hd, hne, hall, rfl⟩
    unfold matchesArnTail
    have hlen : 12 ≤ (a ++ ":role/".data ++ nm).length := by
      simp [List.length_append]; omega
    rw [if_pos hlen]
    have htake : (a ++ ":role/".data ++ nm).take 12 = a := by
      rw [List.append_assoc, ← ha, List.take_left]
    have hdrop : (a ++ ":role/".data ++ nm).drop 12 = ":role/".data ++ nm := by
      rw [List.append_assoc, ← ha, List.drop_left]
    rw [htake, hdrop, (chompLit_eq_some (":role/".data) _ nm).mpr rfl]
    simp [hd, hall, hne]

theorem matchesArnPat_eq_true (p : String) (r1 : List Char) :
    matchesArnPat r1 p = true ↔
      ∃ a n : List Char, a.length = 12 ∧ a.all Char.isDigit = true ∧
        n ≠ [] ∧ n.all isArnNameChar = true ∧
        r1 = p.data ++ (":iam::".data ++ (a ++ (":role/".data ++ n))) := by
  unfold matchesArnPat
  constructor
  · intro h
    rcases h2 : chompLit (p.data ++ ":iam::".data) r1 with _ | r2
    · rw [h2] at h; simp at h
    · rw [h2] at h
      have hr1 : r1 = (p.data ++ ":iam::".data) ++ r2 :=
        (chompLit_eq_some _ _ _).mp h2
      obtain ⟨a, nm, ha, hd, hne, hall, hr2⟩ := (matchesArnTail_eq_true r2).mp h
      exact ⟨a, nm, ha, hd, hne, hall, by rw [hr1, hr2]; simp [List.append_assoc]⟩
  · rintro ⟨a, nm, ha, hd, hne, hall, hr1⟩
    have hc : chompLit (p.data ++ ":iam::".data) r1 = some (a ++ ":role/".data ++ nm) := by
      apply (chompLit_eq_some _ _ _).mpr
      rw [hr1]; simp [List.append_assoc]
    rw [hc]
    exact (matchesArnTail_eq_true _).mpr ⟨a, nm, ha, hd, hne, hall, rfl⟩

theorem arnPattern_eq_true (s : String) : arnPattern s = true ↔ RoleArnSpec s := by
  unfold arnPattern
  constructor
  · intro h
    rcases h1 : chompLit ("arn:".data) s.data with _ | r1
    · rw [h1] at h; simp at h
    · rw [h1] at h
      have hs1 : s.data = "arn:".data ++ r1 := (chompLit_eq_some _ _ _).mp h1
      simp only [Bool.or_eq_true] at h
      rcases h with (hp | hp) | hp
      · obtain ⟨a, nm, ha, hd, hne, hall, hr1⟩ := (matchesArnPat_eq_true _ r1).mp hp
        exact ⟨"aws".data, a, nm, Or.inl rfl, ha, hd, hne, hall, by rw [hs1, hr1]⟩
      · obtain ⟨a, nm, ha, hd, hne, hall, hr1⟩ := (matchesArnPat_eq_true _ r1).mp hp
        exact ⟨"aws-cn".data, a, nm, Or.inr (Or.inl rfl), ha, hd, hne, hall,
          by rw [hs1, hr1]⟩
      · obtain ⟨a, nm, ha, hd, hne, hall, hr1⟩ := (matchesArnPat_eq_true _ r1).mp hp
        exact ⟨"aws-us-gov".data, a, nm, Or.inr (Or.inr rfl), ha, hd, hne, hall,
          by rw [hs1, hr1]⟩
  · rintro ⟨p, a, nm, hmem, ha, hd, hne, hall, hs⟩
    have h1 : chompLit ("arn:".data) s.data =
        some (p ++ (":iam::".data ++ (a ++ (":role/".data ++ nm)))) :=
      (chompLit_eq_some _ _ _).mpr hs
    rw [h1]
    simp only [Bool.or_eq_true]
    have hpat : ∀ q : String, p = q.data →
        matchesArnPat (p ++ (":iam::".data ++ (a ++ (":role/".data ++ nm)))) q = true := by
      intro q hq
      exact (matchesArnPat_eq_true q _).mpr ⟨a, nm, ha, hd, hne, hall, by rw [hq]⟩
    rcases hmem with hm | hm | hm
    · exact Or.inl (Or.inl (hpat _ hm))
    · exact Or.inl (Or.inr (hpat _ hm))
    · exact Or.inr (hpat _ hm)

/-- Claim C5: `ValidateRoleArn` accepts exactly the strings of the grammar
`arn:<partition>:iam::<12 digits>:role/<name>` with partition in
{aws, aws-cn, aws-us-gov} and a non-empty name over the permitted
character set, and returns an error for every other string. -/
theorem c5_validate_role_arn_matches_grammar :
    (∀ s, ValidateRoleArn s = .ok () ↔ RoleArnSpec s) ∧
    (∀ s, ¬ RoleArnSpec s → ∃ e, ValidateRoleArn s = .error e) := by
  have hmain : ∀ s, ValidateRoleArn s = .ok () ↔ RoleArnSpec s := by
    intro s
    unfold ValidateRoleArn
    constructor
    · intro h
      by_cases hempty : s = ""
      · rw [if_pos hempty] at h; exact absurd h (by simp)
      rw [if_neg hempty] at h
      by_cases hpat : arnPattern s = true
      · exact (arnPattern_eq_true s).mp hpat
      · rw [if_pos (by simp [Bool.not_eq_true] at hpat ⊢; exact hpat)] at h
        exact absurd h (by simp)
    · intro hspec
      have hpat := (arnPattern_eq_true s).mpr hspec
      have hempty : s ≠ "" := by
        intro hs
        obtain ⟨p, a, nm, hmem, ha, hd, hne, hall, hdata⟩ := hspec
        rw [hs] at hdata
        have : ("" : String).data = [] := rfl
        rw [this] at hdata
        rcases hmem with hm | hm | hm <;> simp [hm] at hdata
      rw [if_neg hempty, if_neg (by simp [hpat])]
  refine ⟨hmain, ?_⟩
  intro s hspec
  rcases h : ValidateRoleArn s with e | u
  · exact ⟨e, rfl⟩
  · exact absurd ((hmain s).mp (by cases u; exact h)) hspec

/-- Witness for C5: the canonical valid ARN is accepted, and the string
`"not-an-arn"` is rejected with an error. -/
theorem c5_witness :
    ValidateRoleArn "arn:aws:iam::123456789012:role/MyRole" = .ok () ∧
    (∃ e, ValidateRoleArn "not-an-arn" = .error e) := by
  constructor
  · exact (c5_validate_role_arn_matches_grammar.1 _).mpr
      ⟨"aws".data, "123456789012".data, "MyRole".data, Or.inl rfl,
        by decide, by decide, by decide, by decide, by decide⟩
  · have hval : ValidateRoleArn "not-an-arn" =
        .error (.message ("invalid AWS role ARN format: " ++ "not-an-arn" ++
          " (expected format: arn:aws:iam::123456789012:role/RoleName)")) := by rfl
    refine c5_validate_role_arn_matches_grammar.2 "not-an-arn" (fun hs => ?_)
    have h := (c5_validate_role_arn_matches_grammar.1 _).mpr hs
    rw [hval] at h
    exact absurd h (by simp)

/-- A `time.Time` value, reduced to the observables this program uses:
the absolute instant (Unix seconds plus nanoseconds) and the zone offset
east of UTC in minutes.  Well-formed values have `nsec < 10^9` and an
offset smaller than a day; theorems state those bounds as hypotheses. -/
structure GoTime where
  sec : Int
  nsec : Nat
  offsetMin : Int
deriving DecidableEq, Repr

/-- Embeds `types.AWSTempCredentials`. -/
structure AWSTempCredentials where
  Version : Int
  AccessKeyId : String
  SecretAccessKey : String
  SessionToken : String
  Expiration : GoTime
deriving DecidableEq, Repr

/-- The fields of the `aws.Credentials` value that `awsCredsCache.Retrieve`
returns and `GetCredentials` reads. -/
structure RetrievedCreds where
  AccessKeyID : String
  SecretAccessKey : String
  SessionToken : String
  Expires : GoTime
deriving DecidableEq, Repr

/-- The AWS-SDK effects `aws.GetCredentials` performs, as oracle outcomes:
`config.LoadDefaultConfig` (its config value is opaque to the embedding)
and `awsCredsCache.Retrieve`, the STS network exchange. -/
structure AWSEnv where
  loadDefaultConfig : Except GoError Unit
  retrieve : Except GoError RetrievedCreds

/-- Embeds `aws.GetCredentials`: load the regional config, run the
web-identity exchange through the credentials cache, and map the result
into `AWSTempCredentials` with `Version = 1`.  The function consults no
validator: `stsRegion` and `awsAssumeRoleArn` are forwarded as given. -/
def GetCredentials (env : AWSEnv) (stsRegion awsAssumeRoleArn sessionIdentifier : String) :
    Except GoError AWSTempCredentials :=
  match env.loadDefaultConfig with
  | .error err => .error (.wrap "failed to load AWS config" err)
  | .ok _ =>
    match env.retrieve with
    | .error err => .error (.wrap "failed to retrieve AWS credentials" err)
    | .ok awsCredentials =>
      .ok { Version := 1
            AccessKeyId := awsCredentials.AccessKeyID
            SecretAccessKey := awsCredentials.SecretAccessKey
            SessionToken := awsCredentials.SessionToken
            Expiration := awsCredentials.Expires }

/-- Counterexample to claim C6: `"not-an-arn"` is rejected by
`ValidateRoleArn`, yet `GetCredentials` run with that role ARN (and an
environment whose network exchange succeeds) completes the exchange and
returns the credentials instead of failing with a validation error before
the network call. -/
theorem c6_counterexample_no_validation_in_get_credentials :
    (∃ e, ValidateRoleArn "not-an-arn" = .error e) ∧
    (∃ e, ValidateSTSRegion "not-a-region" = .error e) ∧
    GetCredentials ⟨.ok (), .ok ⟨"AKID", "SECRET", "TOKEN", ⟨0, 0, 0⟩⟩⟩
        "not-a-region" "not-an-arn" "sess" =
      .ok ⟨1, "AKID", "SECRET", "TOKEN", ⟨0, 0, 0⟩⟩ :=
  ⟨⟨_, rfl⟩, ⟨_, rfl⟩, rfl⟩

/-- Claim C6 as amended: the grammar and region checks exist as the
separate pure functions `ValidateRoleArn` and `ValidateSTSRegion`, but
`GetCredentials` itself does not invoke them — for any role ARN and region
both validators reject, the exchange still proceeds and returns whatever
the federation call yields. -/
theorem c6_amended_get_credentials_forwards_unvalidated_inputs
    (env : AWSEnv) (region arn sess : String) (creds : RetrievedCreds)
    (eA eR : GoError)
    (hL : env.loadDefaultConfig = .ok ()) (hR : env.retrieve = .ok creds)
    (hA : ValidateRoleArn arn = .error eA) (hRg : ValidateSTSRegion region = .error eR) :
    GetCredentials env region arn sess =
      .ok ⟨1, creds.AccessKeyID, creds.SecretAccessKey, creds.SessionToken, creds.Expires⟩ := by
  simp only [GetCredentials, hL, hR]

/-- Witness for amended C6 at concrete inputs. -/
theorem c6_amended_witness :
    GetCredentials ⟨.ok (), .ok ⟨"AKID", "SECRET", "TOKEN", ⟨0, 0, 0⟩⟩⟩
        "not-a-region" "not-an-arn" "sess" =
      .ok ⟨1, "AKID", "SECRET", "TOKEN", ⟨0, 0, 0⟩⟩ :=
  c6_amended_get_credentials_forwards_unvalidated_inputs
    ⟨.ok (), .ok ⟨"AKID", "SECRET", "TOKEN", ⟨0, 0, 0⟩⟩⟩ "not-a-region" "not-an-arn" "sess"
    ⟨"AKID", "SECRET", "TOKEN", ⟨0, 0, 0⟩⟩ _ _ rfl rfl rfl rfl

/-- The fixed token audience `types.GCPTokenAudience`. -/
def GCPTokenAudience : String := "gcp"

/-- The default audience used when `IDENTITY_TOKEN_AUDIENCE` is unset. -/
def defaultAudience : String := GCPTokenAudience

/-- The fixed Google Cloud SDK audience used by the refresh-token branch. -/
def googleCloudSDKAudience : String := "32555940559.apps.googleusercontent.com"

/-- The token endpoint URL. -/
def googleTokenInfoURL : String := "https://oauth2.googleapis.com/token"

/-- Embeds the `credentialsFile` struct parsed from the credentials JSON.
The Go field `Type` is named `ctype` here because `Type` is reserved. -/
structure CredentialsFile where
  ctype : String
  clientID : String
  clientSecret : String
  refreshToken : String
  projectID : String
  privateKeyID : String
  privateKey : String
  clientEmail : String
deriving DecidableEq, Repr

/-- An outgoing HTTP request, reduced to the parts this program sets. -/
structure HTTPRequest where
  method : String
  url : String
  contentType : String
  body : String
deriving DecidableEq, Repr

/-- An HTTP response: status code and the bytes `io.ReadAll` yields. -/
structure HTTPResponse where
  statusCode : Nat
  body : String
deriving DecidableEq, Repr

/-- Uppercase hexadecimal digit, for percent-escaping. -/
def hexDigitUpper (n : Nat) : Char :=
  if n < 10 then Char.ofNat (48 + n) else Char.ofNat (55 + n)

/-- Models Go `url.QueryEscape` on one byte (query-component mode):
alphanumerics and `-_.~` kept, space becomes `+`, all else `%XX`. -/
def queryEscapeChar (c : Char) : List Char :=
  if c.isAlpha || c.isDigit || c = '-' || c = '_' || c = '.' || c = '~' then [c]
  else if c = ' ' then ['+']
  else ['%', hexDigitUpper (c.toNat / 16 % 16), hexDigitUpper (c.toNat % 16)]

/-- Models Go `url.QueryEscape` on ASCII input. -/
def queryEscape (s : String) : String :=
  String.mk (s.data.map queryEscapeChar).flatten

/-- Models `url.Values.Encode()`: the caller lists the pairs in the sorted
key order `Encode` produces; each key and value is query-escaped and the
pairs are joined with `=` and `&`. -/
def urlValuesEncode (kvs : List (String × String)) : String :=
  String.intercalate "&" (kvs.map (fun kv => queryEscape kv.1 ++ "=" ++ queryEscape kv.2))

/-- The form-encoded HTTP POST request the refresh-token branch of
`generateIdentityToken` builds: parameters `client_id`, `client_secret`,
`refresh_token`, `grant_type=refresh_token` and the fixed SDK `audience`,
listed in the sorted order `url.Values.Encode` emits. -/
def refreshTokenRequest (cf : CredentialsFile) : HTTPRequest :=
  { method := "POST"
    url := googleTokenInfoURL
    contentType := "application/x-www-form-urlencoded"
    body := urlValuesEncode
      [("audience", googleCloudSDKAudience), ("client_id", cf.clientID),
       ("client_secret", cf.clientSecret), ("grant_type", "refresh_token"),
       ("refresh_token", cf.refreshToken)] }

/-- The external effects of the identity-token layer, as oracles.
`credentials` merges `google.FindDefaultCredentials` and the
`json.Unmarshal` of its JSON into the parsed `credentialsFile` (no claim
distinguishes the two failure stages).  `idTokenFromServiceAccount` and
`idTokenFromMetadata` are the `idtoken.NewTokenSource(...).Token()`
pipelines as functions of the audience argument passed to them; their
results carry those branches' own error wrapping. -/
structure TokenEnv where
  identityTokenAudience : String
  credentials : Except GoError CredentialsFile
  httpDo : HTTPRequest → Except GoError HTTPResponse
  jsonIdToken : String → Except GoError String
  idTokenFromServiceAccount : String → Except GoError String
  idTokenFromMetadata : String → Except GoError String

/-- Embeds `gcp.fetchInstanceIdentityToken`: resolve the audience from the
`IDENTITY_TOKEN_AUDIENCE` environment variable (default when empty) and
request an identity token from the GCE metadata pipeline with it. -/
def fetchInstanceIdentityToken (env : TokenEnv) : Except GoError String :=
  let audience :=
    if env.identityTokenAudience = "" then defaultAudience else env.identityTokenAudience
  env.idTokenFromMetadata audience

/-- Embeds `gcp.generateIdentityToken` (the local-credentials path):
resolve the audience override, load and parse the default credentials,
then branch on the credential type.  The `authorized_user` branch sends
the form-encoded POST with the fixed SDK audience and parses the JSON
`id_token`; the `service_account` branch calls the idtoken pipeline with
the resolved audience; anything else is an unsupported-type error. -/
def generateIdentityToken (env : TokenEnv) : Except GoError String :=
  let audience :=
    if env.identityTokenAudience = "" then defaultAudience else env.identityTokenAudience
  match env.credentials with
  | .error err => .error (.wrap "failed to get default credentials" err)
  | .ok cf =>
    if cf.ctype = "authorized_user" then
      match env.httpDo (refreshTokenRequest cf) with
      | .error err => .error (.wrap "failed to execute token request" err)
      | .ok resp =>
        if resp.statusCode ≠ 200 then
          .error (.message ("token request failed with status " ++
            toString resp.statusCode ++ ": " ++ resp.body))
        else
          match env.jsonIdToken resp.body with
          | .error err => .error (.wrap "failed to parse token response" err)
          | .ok idToken => .ok idToken
    else if cf.ctype = "service_account" then
      env.idTokenFromServiceAccount audience
    else .error (.message ("unsupported credential type: " ++ cf.ctype))

/-- Renders a `GoError` the way Go's `Error()` does for errors built with
`fmt.Errorf("...: %w", cause)` chains. -/
def errString : GoError → String
  | .ctxCanceled => "context canceled"
  | .ctxDeadlineExceeded => "context deadline exceeded"
  | .message m => m
  | .wrap m cause => m ++ ": " ++ errString cause

/-- Decidable byte-level substring test. -/
def containsB (hay needle : List Char) : Bool :=
  (List.range (hay.length + 1)).any (fun i => (chompLit needle (hay.drop i)).isSome)

theorem containsB_eq_true (hay needle : List Char) :
    containsB hay needle = true ↔ ∃ pre post, hay = pre ++ needle ++ post := by
  unfold containsB
  rw [List.any_eq_true]
  constructor
  · rintro ⟨i, _, hsome⟩
    rcases hrest : chompLit needle (hay.drop i) with _ | rest
    · rw [hrest] at hsome; simp at hsome
    · have hdec := (chompLit_eq_some needle (hay.drop i) rest).mp hrest
      refine ⟨hay.take i, rest, ?_⟩
      rw [List.append_assoc, ← hdec, List.take_append_drop]
  · rintro ⟨pre, post, rfl⟩
    refine ⟨pre.length, ?_, ?_⟩
    · rw [List.mem_range]
      simp [List.length_append]
      omega
    · have hdrop : ((pre ++ needle ++ post).drop pre.length) = needle ++ post := by
        rw [List.append_assoc, List.drop_left]
      rw [hdrop, (chompLit_eq_some needle _ post).mpr rfl]
      rfl

instance {ε α : Type} [DecidableEq ε] [DecidableEq α] : DecidableEq (Except ε α) := fun x y =>
  match x, y with
  | .ok a, .ok b => if h : a = b then isTrue (by rw [h]) else isFalse (by simp [h])
  | .error a, .error b => if h : a = b then isTrue (by rw [h]) else isFalse (by simp [h])
  | .ok _, .error _ => isFalse (by simp)
  | .error _, .ok _ => isFalse (by simp)

/-- Claim C7 as amended: the refresh-token branch sends its exchange as an
HTTP POST whose form-encoded body carries `client_id`, `client_secret`,
`refresh_token`, `grant_type=refresh_token` and the audience; the response
is parsed as a JSON body carrying the issued `id_token`; a non-200 status
yields an error whose message includes the response body; and a malformed
body yields a hard failure wrapping the JSON parse error (which does not
in general include the response body). -/
theorem c7_amended_refresh_token_exchange
    (env : TokenEnv) (cf : CredentialsFile)
    (hc : env.credentials = .ok cf) (ht : cf.ctype = "authorized_user") :
    ((refreshTokenRequest cf).method = "POST" ∧
     (refreshTokenRequest cf).contentType = "application/x-www-form-urlencoded" ∧
     (refreshTokenRequest cf).url = googleTokenInfoURL) ∧
    (∀ e, env.httpDo (refreshTokenRequest cf) = .error e →
      generateIdentityToken env = .error (.wrap "failed to execute token request" e)) ∧
    (∀ resp, env.httpDo (refreshTokenRequest cf) = .ok resp → resp.statusCode ≠ 200 →
      generateIdentityToken env = .error (.message ("token request failed with status " ++
        toString resp.statusCode ++ ": " ++ resp.body)) ∧
      containsB ("token request failed with status " ++
        toString resp.statusCode ++ ": " ++ resp.body).data resp.body.data = true) ∧
    (∀ resp tok, env.httpDo (refreshTokenRequest cf) = .ok resp → resp.statusCode = 200 →
      env.jsonIdToken resp.body = .ok tok → generateIdentityToken env = .ok tok) ∧
    (∀ resp e, env.httpDo (refreshTokenRequest cf) = .ok resp → resp.statusCode = 200 →
      env.jsonIdToken resp.body = .error e →
      generateIdentityToken env = .error (.wrap "failed to parse token response" e)) := by
  refine ⟨⟨rfl, rfl, rfl⟩, ?_, ?_, ?_, ?_⟩
  · intro e he
    simp [generateIdentityToken, hc, ht, he]
  · intro resp hr hne
    refine ⟨?_, ?_⟩
    · simp [generateIdentityToken, hc, ht, hr, hne]
    · apply (containsB_eq_true _ _).mpr
      exact ⟨("token request failed with status " ++ toString resp.statusCode ++ ": ").data,
        [], by simp [String.data_append, List.append_assoc]⟩
  · intro resp tok hr h200 hj
    simp [generateIdentityToken, hc, ht, hr, h200, hj]
  · intro resp e hr h200 hj
    simp [generateIdentityToken, hc, ht, hr, h200, hj]

/-- Witness for amended C7 at a concrete environment whose exchange
answers HTTP 400 with body `"denied"`. -/
theorem c7_amended_witness :
    generateIdentityToken
      { identityTokenAudience := ""
        credentials := .ok ⟨"authorized_user", "cid", "csec", "rtok", "", "", "", ""⟩
        httpDo := fun _ => .ok ⟨400, "denied"⟩
        jsonIdToken := fun b => .ok b
        idTokenFromServiceAccount := fun a => .ok a
        idTokenFromMetadata := fun a => .ok a } =
      .error (.message ("token request failed with status " ++ toString (400 : Nat) ++
        ": " ++ "denied")) :=
  ((c7_amended_refresh_token_exchange
      { identityTokenAudience := ""
        credentials := .ok ⟨"authorized_user", "cid", "csec", "rtok", "", "", "", ""⟩
        httpDo := fun _ => .ok ⟨400, "denied"⟩
        jsonIdToken := fun b => .ok b
        idTokenFromServiceAccount := fun a => .ok a
        idTokenFromMetadata := fun a => .ok a }
      ⟨"authorized_user", "cid", "csec", "rtok", "", "", "", ""⟩ rfl rfl).2.2.1
    ⟨400, "denied"⟩ rfl (by decide)).1

/-- Counterexample to claim C7 as stated: with the exchange answering
HTTP 200 and the malformed body `"oops"`, the resulting error wraps the
JSON parse error and its rendered message does not include the response
body. -/
theorem c7_counterexample_parse_error_lacks_body :
    generateIdentityToken
      { identityTokenAudience := ""
        credentials := .ok ⟨"authorized_user", "cid", "csec", "rtok", "", "", "", ""⟩
        httpDo := fun _ => .ok ⟨200, "oops"⟩
        jsonIdToken := fun _ =>
          .error (.message "invalid character looking for beginning of value")
        idTokenFromServiceAccount := fun a => .ok a
        idTokenFromMetadata := fun a => .ok a } =
      .error (.wrap "failed to parse token response"
        (.message "invalid character looking for beginning of value")) ∧
    containsB (errString (.wrap "failed to parse token response"
        (.message "invalid character looking for beginning of value"))).data
      "oops".data = false := by
  exact ⟨by decide, by decide⟩

/-- Claim C8 as amended: when `IDENTITY_TOKEN_AUDIENCE` is non-empty it
replaces the default audience in the platform-native metadata branch and
in the service-identity branch, but the refreshable-user-credential
branch ignores it — its exchange request is invariant under the override
and always carries the fixed Google Cloud SDK audience. -/
theorem c8_amended_audience_override
    (env : TokenEnv) (cf : CredentialsFile) (hne : env.identityTokenAudience ≠ "") :
    fetchInstanceIdentityToken env = env.idTokenFromMetadata env.identityTokenAudience ∧
    (env.credentials = .ok cf → cf.ctype = "service_account" →
      generateIdentityToken env = env.idTokenFromServiceAccount env.identityTokenAudience) ∧
    (env.credentials = .ok cf → cf.ctype = "authorized_user" → ∀ aud2 : String,
      generateIdentityToken { env with identityTokenAudience := aud2 } =
        generateIdentityToken env) := by
  refine ⟨?_, ?_, ?_⟩
  · simp [fetchInstanceIdentityToken, hne]
  · intro hc ht
    simp [generateIdentityToken, hc, ht, hne]
  · intro hc ht aud2
    simp [generateIdentityToken, hc, ht]

/-- Witness for amended C8: with the override `"custom"` set and oracles
that echo the audience they receive, both the metadata branch and the
service-identity branch produce a token for `"custom"`. -/
theorem c8_amended_witness :
    fetchInstanceIdentityToken
      { identityTokenAudience := "custom"
        credentials := .ok ⟨"service_account", "", "", "", "", "", "pk", "sa@x"⟩
        httpDo := fun _ => .ok ⟨200, ""⟩
        jsonIdToken := fun b => .ok b
        idTokenFromServiceAccount := fun a => .ok a
        idTokenFromMetadata := fun a => .ok a } = .ok "custom" ∧
    generateIdentityToken
      { identityTokenAudience := "custom"
        credentials := .ok ⟨"service_account", "", "", "", "", "", "pk", "sa@x"⟩
        httpDo := fun _ => .ok ⟨200, ""⟩
        jsonIdToken := fun b => .ok b
        idTokenFromServiceAccount := fun a => .ok a
        idTokenFromMetadata := fun a => .ok a } = .ok "custom" := by
  have h := c8_amended_audience_override
    { identityTokenAudience := "custom"
      credentials := .ok ⟨"service_account", "", "", "", "", "", "pk", "sa@x"⟩
      httpDo := fun _ => .ok ⟨200, ""⟩
      jsonIdToken := fun b => .ok b
      idTokenFromServiceAccount := fun a => .ok a
      idTokenFromMetadata := fun a => .ok a }
    ⟨"service_account", "", "", "", "", "", "pk", "sa@x"⟩ (by decide)
  exact ⟨h.1, h.2.1 rfl rfl⟩

set_option maxRecDepth 40000 in
/-- Counterexample to claim C8 as stated: with the override set to
`"custom-audience"`, the refresh-token branch still sends the fixed SDK
audience — the form body it produces names `32555940559` and never
mentions the override value (here the HTTP oracle echoes the request body
back so the sent body is observable in the result). -/
theorem c8_counterexample_refresh_branch_ignores_override :
    generateIdentityToken
      { identityTokenAudience := "custom-audience"
        credentials := .ok ⟨"authorized_user", "cid", "csec", "rtok", "", "", "", ""⟩
        httpDo := fun req => .ok ⟨200, req.body⟩
        jsonIdToken := fun b => .ok b
        idTokenFromServiceAccount := fun a => .ok a
        idTokenFromMetadata := fun a => .ok a } =
      .ok ("audience=32555940559.apps.googleusercontent.com&client_id=cid&" ++
        "client_secret=csec&grant_type=refresh_token&refresh_token=rtok") ∧
    containsB ("audience=32555940559.apps.googleusercontent.com&client_id=cid&" ++
        "client_secret=csec&grant_type=refresh_token&refresh_token=rtok").data
      "custom-audience".data = false := by
  exact ⟨by decide, by decide⟩

/-! ### Model of the Go `time` package calendar and RFC 3339 round trip

The `time` package is standard-library code, not part of this repository;
the definitions below model the Gregorian-calendar and RFC 3339 behaviour
its documentation guarantees.  Days are counted from the Unix epoch
(1970-01-01); the proleptic Gregorian calendar repeats every 146097 days
(400 years). -/

/-- Largest `y ≤ k` with `f y ≤ x` (`0` when none), by downward search. -/
def lastLE (f : Nat → Nat) (x : Nat) : Nat → Nat
  | 0 => 0
  | k+1 => if f (k+1) ≤ x then k+1 else lastLE f x k

theorem lastLE_spec (f : Nat → Nat) (x : Nat) :
    ∀ k, f 0 ≤ x → x < f (k+1) →
      f (lastLE f x k) ≤ x ∧ x < f (lastLE f x k + 1) ∧ lastLE f x k ≤ k := by
  intro k
  induction k with
  | zero =>
    intro h0 h1
    exact ⟨h0, h1, Nat.le_refl 0⟩
  | succ k ih =>
    intro h0 h1
    by_cases h : f (k+1) ≤ x
    · simp only [lastLE, if_pos h]
      exact ⟨h, h1, Nat.le_refl _⟩
    · simp only [lastLE, if_neg h]
      have hr := ih h0 (by omega)
      exact ⟨hr.1, hr.2.1, by omega⟩

/-- Gregorian leap-year rule. -/
def isLeapNat (k : Nat) : Bool :=
  k % 4 == 0 && (!(k % 100 == 0) || k % 400 == 0)

/-- Gregorian leap-year rule on `Int` years. -/
def isLeapInt (y : Int) : Bool :=
  y % 4 == 0 && (!(y % 100 == 0) || y % 400 == 0)

theorem isLeapNat_iff (k : Nat) :
    isLeapNat k = true ↔ (k % 4 = 0 ∧ (¬ k % 100 = 0 ∨ k % 400 = 0)) := by
  simp [isLeapNat]

theorem isLeapInt_iff (y : Int) :
    isLeapInt y = true ↔ (y % 4 = 0 ∧ (¬ y % 100 = 0 ∨ y % 400 = 0)) := by
  simp [isLeapInt]

theorem bool_eq_of_iff {a b : Bool} (h : a = true ↔ b = true) : a = b := by
  cases a <;> cases b <;> simp_all

/-- Leap-ness only depends on the year within its 400-year era. -/
theorem isLeapInt_shift (era : Int) (k : Nat) :
    isLeapInt (era * 400 + (k : Int)) = isLeapNat k :=
  bool_eq_of_iff (by rw [isLeapInt_iff, isLeapNat_iff]; omega)

/-- Days from the start of a 400-year era (era year 0, March-based shift
folded in below) to the start of era year `y`:  365 per year plus the
leap days of the completed years. -/
def yearStartDays (y : Nat) : Nat := 365*y + y/4 - y/100 + y/400

set_option maxHeartbeats 1000000 in
theorem yearStartDays_step (k : Nat) :
    yearStartDays (k+1) =
      yearStartDays k + (if isLeapNat (k+1) = true then 366 else 365) := by
  have h := isLeapNat_iff (k+1)
  by_cases hb : isLeapNat (k+1) = true
  · rw [if_pos hb]
    have hp := h.mp hb
    unfold yearStartDays
    omega
  · rw [if_neg hb]
    have hp : ¬ ((k+1) % 4 = 0 ∧ (¬ (k+1) % 100 = 0 ∨ (k+1) % 400 = 0)) :=
      fun hc => hb (h.mpr hc)
    unfold yearStartDays
    omega

/-- Cumulative day count before each month of the March-based year
(month 0 = March, …, month 11 = February); 12 and above map to the era
year length bound 366. -/
def monthStartMar : Nat → Nat
  | 0 => 0 | 1 => 31 | 2 => 61 | 3 => 92 | 4 => 122 | 5 => 153
  | 6 => 184 | 7 => 214 | 8 => 245 | 9 => 275 | 10 => 306 | 11 => 337
  | _ => 366

/-- Era index of a day count (epoch shift 719468 moves day 0 to
0000-03-01 of era 0). -/
def eraOf (z : Int) : Int := (z + 719468) / 146097

/-- Day of era, in `[0, 146096]`. -/
def doeOf (z : Int) : Nat := ((z + 719468) % 146097).toNat

/-- Year of era, in `[0, 399]`. -/
def yoeOf (z : Int) : Nat := lastLE yearStartDays (doeOf z) 399

/-- Day of the (March-based) era year. -/
def doyOf (z : Int) : Nat := doeOf z - yearStartDays (yoeOf z)

/-- March-based month index, in `[0, 11]`. -/
def mpOf (z : Int) : Nat := lastLE monthStartMar (doyOf z) 11

/-- Civil day of month, in `[1, 31]`. -/
def dayOf (z : Int) : Nat := doyOf z - monthStartMar (mpOf z) + 1

/-- Civil month, in `[1, 12]` (March-based month mapped back). -/
def monthOf (z : Int) : Nat := if mpOf z < 10 then mpOf z + 3 else mpOf z - 9

/-- Civil year (January/February belong to the next March-based year). -/
def yearOf (z : Int) : Int :=
  eraOf z * 400 + yoeOf z + (if monthOf z ≤ 2 then 1 else 0)

/-- Civil date `(year, month, day)` of a day count from the epoch;
models the date computation of Go `time.Time.Date`. -/
def civilFromDays (z : Int) : Int × Nat × Nat := (yearOf z, monthOf z, dayOf z)

/-- Day count from the epoch of a civil date; models the inverse date
computation of Go `time.Date`. -/
def daysFromCivil (y : Int) (m d : Nat) : Int :=
  (if m ≤ 2 then y - 1 else y) / 400 * 146097 +
  ((yearStartDays ((if m ≤ 2 then y - 1 else y) % 400).toNat +
    (monthStartMar (if 2 < m then m - 3 else m + 9) + (d - 1)) : Nat) : Int) - 719468

/-- Days in a month, as Go `time` validates dates (Int year). -/
def goDaysInInt (m : Nat) (y : Int) : Nat :=
  if m = 2 then (if isLeapInt y then 29 else 28)
  else if m = 4 ∨ m = 6 ∨ m = 9 ∨ m = 11 then 30 else 31

/-- Days in a month, as the RFC 3339 parser validates dates (Nat year). -/
def goDaysIn (m year : Nat) : Nat :=
  if m = 2 then (if isLeapNat year then 29 else 28)
  else if m = 4 ∨ m = 6 ∨ m = 9 ∨ m = 11 then 30 else 31

theorem doeOf_lt (z : Int) : doeOf z < 146097 := by
  unfold doeOf; omega

theorem era_doe (z : Int) : z + 719468 = eraOf z * 146097 + doeOf z := by
  unfold eraOf doeOf; omega

theorem yoe_spec (z : Int) :
    yearStartDays (yoeOf z) ≤ doeOf z ∧
    doeOf z < yearStartDays (yoeOf z + 1) ∧ yoeOf z ≤ 399 := by
  unfold yoeOf
  refine lastLE_spec yearStartDays (doeOf z) 399 (by simp [yearStartDays]) ?_
  rw [show (399 : Nat) + 1 = 400 from rfl, show yearStartDays 400 = 146097 from rfl]
  exact doeOf_lt z

theorem doy_lt_366 (z : Int) : doyOf z < 366 := by
  have hy := yoe_spec z
  have hs := yearStartDays_step (yoeOf z)
  unfold doyOf
  by_cases hb : isLeapNat (yoeOf z + 1) = true
  · rw [if_pos hb] at hs; omega
  · rw [if_neg hb] at hs; omega

theorem doy_lt_of_not_leap (z : Int) (h : ¬ isLeapNat (yoeOf z + 1) = true) :
    doyOf z < 365 := by
  have hy := yoe_spec z
  have hs := yearStartDays_step (yoeOf z)
  rw [if_neg h] at hs
  unfold doyOf
  omega

theorem mp_spec (z : Int) :
    monthStartMar (mpOf z) ≤ doyOf z ∧
    doyOf z < monthStartMar (mpOf z + 1) ∧ mpOf z ≤ 11 := by
  unfold mpOf
  refine lastLE_spec monthStartMar (doyOf z) 11 (by simp [monthStartMar]) ?_
  rw [show (11 : Nat) + 1 = 12 from rfl, show monthStartMar 12 = 366 from rfl]
  exact doy_lt_366 z

/-- The civil conversion inverts the day count: the calendar round trip. -/
theorem daysFromCivil_civilFromDays (z : Int) :
    daysFromCivil (yearOf z) (monthOf z) (dayOf z) = z := by
  have hed := era_doe z
  have hy := yoe_spec z
  have hmp := mp_spec z
  have hy2 : (if monthOf z ≤ 2 then yearOf z - 1 else yearOf z) =
      eraOf z * 400 + yoeOf z := by
    by_cases h : monthOf z ≤ 2
    · rw [if_pos h]; unfold yearOf; rw [if_pos h]; omega
    · rw [if_neg h]; unfold yearOf; rw [if_neg h]; omega
  have hera : (eraOf z * 400 + (yoeOf z : Int)) / 400 = eraOf z := by
    have h399 := hy.2.2; omega
  have hyoe : ((eraOf z * 400 + (yoeOf z : Int)) % 400).toNat = yoeOf z := by
    have h399 := hy.2.2; omega
  have hmpr : (if 2 < monthOf z then monthOf z - 3 else monthOf z + 9) = mpOf z := by
    have h11 := hmp.2.2
    unfold monthOf
    by_cases h : mpOf z < 10
    · rw [if_pos h, if_pos (by omega)]; omega
    · rw [if_neg h, if_neg (by omega)]; omega
  have hd : monthStartMar (mpOf z) + (dayOf z - 1) = doyOf z := by
    have h1 := hmp.1; unfold dayOf; omega
  have hdoe : yearStartDays (yoeOf z) + doyOf z = doeOf z := by
    have h1 := hy.1; unfold doyOf; omega
  unfold daysFromCivil
  rw [hy2, hera, hyoe, hmpr, hd, hdoe]
  omega

theorem civil_month_bounds (z : Int) : 1 ≤ monthOf z ∧ monthOf z ≤ 12 := by
  have h11 := (mp_spec z).2.2
  unfold monthOf
  by_cases h : mpOf z < 10 <;> simp [h] <;> omega

theorem civil_day_lower (z : Int) : 1 ≤ dayOf z := by
  unfold dayOf; omega

/-- February 29 only appears in leap years: the day of month respects the
per-month length table used by date validation. -/
theorem civil_day_upper (z : Int) :
    dayOf z ≤ goDaysInInt (monthOf z) (yearOf z) := by
  have hmp := mp_spec z
  have h11 := hmp.2.2
  have hm1 := hmp.1
  have hm2 := hmp.2.1
  by_cases hfeb : mpOf z = 11
  · -- February of era year yoe+1
    have hmon : monthOf z = 2 := by unfold monthOf; rw [hfeb]; decide
    have hyear : yearOf z = eraOf z * 400 + ((yoeOf z + 1 : Nat) : Int) := by
      unfold yearOf; rw [if_pos (by rw [hmon])]; push_cast; ring
    have hleap : isLeapInt (yearOf z) = isLeapNat (yoeOf z + 1) := by
      rw [hyear, isLeapInt_shift]
    have hms : monthStartMar (mpOf z) = 337 := by rw [hfeb]; decide
    rw [hmon]
    unfold goDaysInInt
    rw [if_pos rfl, hleap]
    by_cases hb : isLeapNat (yoeOf z + 1) = true
    · rw [if_pos hb]
      have h366 := doy_lt_366 z
      unfold dayOf
      omega
    · rw [if_neg hb]
      have h365 := doy_lt_of_not_leap z hb
      unfold dayOf
      omega
  · -- fixed-length months: check the 11 remaining table entries
    have h10 : mpOf z ≤ 10 := by omega
    have hub : dayOf z ≤ monthStartMar (mpOf z + 1) - monthStartMar (mpOf z) := by
      unfold dayOf; omega
    have key : ∀ k : Nat, k ≤ 10 → ∀ yy : Int,
        monthStartMar (k + 1) - monthStartMar k ≤
          goDaysInInt (if k < 10 then k + 3 else k - 9) yy := by
      intro k hk yy
      interval_cases k <;> simp [monthStartMar, goDaysInInt]
    have hkey := key (mpOf z) h10 (yearOf z)
    unfold monthOf
    omega

/-- Fixed-width decimal rendering, most significant digit first (the low
`w` digits of `n`, zero-padded). -/
def renderPadNat : Nat → Nat → List Char
  | 0, _ => []
  | w+1, n => Char.ofNat (48 + n / 10^w % 10) :: renderPadNat w n

/-- One decimal digit, or `none`. -/
def parseDigit (c : Char) : Option Nat :=
  if '0' ≤ c ∧ c ≤ '9' then some (c.toNat - 48) else none

/-- Exactly `w` decimal digits, accumulating onto `acc`. -/
def parseNDigitsAux : Nat → Nat → List Char → Option (Nat × List Char)
  | 0, acc, l => some (acc, l)
  | _+1, _, [] => none
  | w+1, acc, c :: cs =>
    match parseDigit c with
    | none => none
    | some d => parseNDigitsAux w (acc * 10 + d) cs

/-- Exactly `w` decimal digits. -/
def parseNDigits (w : Nat) (l : List Char) : Option (Nat × List Char) :=
  parseNDigitsAux w 0 l

/-- Numeric value of a digit string (used for the fractional second). -/
def digitsVal (ds : List Char) : Nat :=
  ds.foldl (fun a c => a * 10 + (c.toNat - 48)) 0

theorem parseDigit_digitChar (k : Nat) (h : k < 10) :
    parseDigit (Char.ofNat (48 + k)) = some k := by
  interval_cases k <;> decide

theorem digitChar_toNat (k : Nat) (h : k < 10) :
    (Char.ofNat (48 + k)).toNat = 48 + k := by
  interval_cases k <;> decide

theorem parseNDigitsAux_render (w : Nat) :
    ∀ (acc n : Nat) (rest : List Char),
      parseNDigitsAux w acc (renderPadNat w n ++ rest) =
        some (acc * 10^w + n % 10^w, rest) := by
  induction w with
  | zero =>
    intro acc n rest
    simp [renderPadNat, parseNDigitsAux]
    omega
  | succ w ih =>
    intro acc n rest
    have hd : n / 10^w % 10 < 10 := Nat.mod_lt _ (by norm_num)
    show parseNDigitsAux (w+1) acc
      (Char.ofNat (48 + n / 10^w % 10) :: (renderPadNat w n ++ rest)) = _
    rw [show parseNDigitsAux (w+1) acc
        (Char.ofNat (48 + n / 10^w % 10) :: (renderPadNat w n ++ rest)) =
        (match parseDigit (Char.ofNat (48 + n / 10^w % 10)) with
         | none => none
         | some d => parseNDigitsAux w (acc * 10 + d) (renderPadNat w n ++ rest)) from rfl,
      parseDigit_digitChar _ hd]
    show parseNDigitsAux w (acc * 10 + n / 10^w % 10) (renderPadNat w n ++ rest) = _
    rw [ih]
    have hmod : n % 10^(w+1) = n % 10^w + 10^w * (n / 10^w % 10) := by
      rw [pow_succ]; exact Nat.mod_mul
    congr 2
    rw [hmod, pow_succ]
    ring

theorem parseNDigits_render (w n : Nat) (rest : List Char) (h : n < 10^w) :
    parseNDigits w (renderPadNat w n ++ rest) = some (n, rest) := by
  unfold parseNDigits
  rw [parseNDigitsAux_render]
  congr 2
  simp [Nat.mod_eq_of_lt h]

theorem renderPadNat_length (w : Nat) : ∀ n, (renderPadNat w n).length = w := by
  induction w with
  | zero => intro n; rfl
  | succ w ih => intro n; simp [renderPadNat, ih]

theorem renderPadNat_digits (w : Nat) :
    ∀ n c, c ∈ renderPadNat w n → (parseDigit c).isSome = true := by
  induction w with
  | zero => intro n c hc; simp [renderPadNat] at hc
  | succ w ih =>
    intro n c hc
    rcases List.mem_cons.mp hc with h | h
    · subst h
      rw [parseDigit_digitChar _ (Nat.mod_lt _ (by norm_num))]
      rfl
    · exact ih n c h

theorem digitsVal_foldl_render (w : Nat) :
    ∀ (acc n : Nat),
      (renderPadNat w n).foldl (fun a c => a * 10 + (c.toNat - 48)) acc =
        acc * 10^w + n % 10^w := by
  induction w with
  | zero => intro acc n; simp [renderPadNat]; omega
  | succ w ih =>
    intro acc n
    have hd : n / 10^w % 10 < 10 := Nat.mod_lt _ (by norm_num)
    show (Char.ofNat (48 + n / 10^w % 10) :: renderPadNat w n).foldl _ acc = _
    rw [List.foldl_cons, digitChar_toNat _ hd]
    have : acc * 10 + (48 + n / 10^w % 10 - 48) = acc * 10 + n / 10^w % 10 := by omega
    rw [this, ih]
    have hmod : n % 10^(w+1) = n % 10^w + 10^w * (n / 10^w % 10) := by
      rw [pow_succ]; exact Nat.mod_mul
    rw [hmod, pow_succ]
    ring

theorem digitsVal_renderPadNat (w n : Nat) :
    digitsVal (renderPadNat w n) = n % 10^w := by
  unfold digitsVal
  rw [digitsVal_foldl_render]
  ring

theorem foldl_replicate_zero (k : Nat) :
    ∀ a : Nat,
      (List.replicate k '0').foldl (fun a c => a * 10 + (c.toNat - 48)) a = a * 10^k := by
  induction k with
  | zero => intro a; simp
  | succ k ih =>
    intro a
    rw [List.replicate_succ, List.foldl_cons,
      show ('0').toNat - 48 = 0 from rfl, Nat.add_zero, ih, pow_succ]
    ring

theorem digitsVal_append_replicate_zero (xs : List Char) (k : Nat) :
    digitsVal (xs ++ List.replicate k '0') = digitsVal xs * 10^k := by
  unfold digitsVal
  rw [List.foldl_append, foldl_replicate_zero]

/-- Drop trailing `'0'` characters. -/
def trimZeros (ds : List Char) : List Char :=
  (ds.reverse.dropWhile (fun c => c == '0')).reverse

/-- The fractional-second part of `RFC3339Nano` output: empty when the
nanoseconds are zero, otherwise a dot and the 9 nanosecond digits with
trailing zeros removed. -/
def renderFrac (ns : Nat) : List Char :=
  if ns = 0 then [] else '.' :: trimZeros (renderPadNat 9 ns)

/-- Parse an optional fractional second: a dot followed by 1–9 digits,
scaled to nanoseconds; absent dot means zero nanoseconds. -/
def parseFrac (l : List Char) : Option (Nat × List Char) :=
  match l with
  | c :: rest =>
    if c = '.' then
      let ds := rest.takeWhile (fun x => (parseDigit x).isSome)
      if ds.length = 0 ∨ 9 < ds.length then none
      else some (digitsVal ds * 10^(9 - ds.length), rest.drop ds.length)
    else some (0, l)
  | [] => some (0, l)

/-- The zone part of `RFC3339Nano` output: `Z` for UTC, else a sign and
`hh:mm` of the absolute offset. -/
def renderOffset (off : Int) : List Char :=
  if off = 0 then ['Z']
  else (if off < 0 then '-' else '+') ::
    (renderPadNat 2 (off.natAbs / 60) ++ ':' :: renderPadNat 2 (off.natAbs % 60))

/-- Parse the zone part: `Z`, or sign and `hh:mm` with `hh ≤ 23`,
`mm ≤ 59`, yielding the offset in minutes. -/
def parseOffset (l : List Char) : Option (Int × List Char) :=
  match l with
  | c :: rest =>
    if c = 'Z' then some (0, rest)
    else if c = '+' ∨ c = '-' then
      match parseNDigits 2 rest with
      | some (hh, rest2) =>
        match rest2 with
        | c2 :: rest3 =>
          if c2 = ':' then
            match parseNDigits 2 rest3 with
            | some (mm, rest4) =>
              if hh ≤ 23 ∧ mm ≤ 59 then
                some (if c = '-' then -((hh * 60 + mm : Nat) : Int)
                      else ((hh * 60 + mm : Nat) : Int), rest4)
              else none
            | none => none
          else none
        | [] => none
      | none => none
    else none
  | [] => none

theorem takeWhile_append_all {p : Char → Bool} (c : Char) (hc : p c = false)
    (t : List Char) :
    ∀ (l : List Char), (∀ x ∈ l, p x = true) → (l ++ c :: t).takeWhile p = l := by
  intro l
  induction l with
  | nil =>
    intro _
    simp [List.takeWhile_cons, hc]
  | cons a as ih =>
    intro hl
    have ha : p a = true := hl a (by simp)
    simp only [List.cons_append, List.takeWhile_cons, ha, if_true]
    rw [ih (fun x hx => hl x (by simp [hx]))]

theorem trimZeros_decomp (ds : List Char) :
    ∃ k, ds = trimZeros ds ++ List.replicate k '0' := by
  unfold trimZeros
  refine ⟨(ds.reverse.takeWhile (fun c => c == '0')).length, ?_⟩
  have hsplit := List.takeWhile_append_dropWhile
    (p := fun c => c == '0') (l := ds.reverse)
  have hrep : ds.reverse.takeWhile (fun c => c == '0') =
      List.replicate (ds.reverse.takeWhile (fun c => c == '0')).length '0' := by
    apply List.eq_replicate_of_mem
    intro b hb
    have := List.mem_takeWhile_imp hb
    simpa using this
  calc ds = ds.reverse.reverse := (List.reverse_reverse ds).symm
    _ = (ds.reverse.takeWhile (fun c => c == '0') ++
          ds.reverse.dropWhile (fun c => c == '0')).reverse := by rw [hsplit]
    _ = (ds.reverse.dropWhile (fun c => c == '0')).reverse ++
          (ds.reverse.takeWhile (fun c => c == '0')).reverse := List.reverse_append _ _
    _ = (ds.reverse.dropWhile (fun c => c == '0')).reverse ++
          List.replicate (ds.reverse.takeWhile (fun c => c == '0')).length '0' := by
          rw [← List.reverse_replicate, ← hrep]

theorem mem_trimZeros_subset {ds : List Char} {x : Char} (hx : x ∈ trimZeros ds) :
    x ∈ ds := by
  unfold trimZeros at hx
  rw [List.mem_reverse] at hx
  have hsub : List.Sublist (ds.reverse.dropWhile (fun c => c == '0')) ds.reverse :=
    List.dropWhile_sublist _
  exact List.mem_reverse.mp (hsub.subset hx)

theorem parseFrac_renderFrac (ns : Nat) (hns : ns < 1000000000)
    (c : Char) (hcd : (parseDigit c).isSome = false) (hcdot : ¬ c = '.')
    (t : List Char) :
    parseFrac (renderFrac ns ++ c :: t) = some (ns, c :: t) := by
  by_cases h0 : ns = 0
  · subst h0
    unfold renderFrac
    rw [if_pos rfl]
    show parseFrac (c :: t) = some (0, c :: t)
    simp [parseFrac, hcdot]
  · unfold renderFrac
    rw [if_neg h0]
    obtain ⟨k, hds⟩ := trimZeros_decomp (renderPadNat 9 ns)
    have hlen9 : (renderPadNat 9 ns).length = 9 := renderPadNat_length 9 ns
    have hlenk : (trimZeros (renderPadNat 9 ns)).length + k = 9 := by
      have hc := congrArg List.length hds
      simp [List.length_append] at hc
      omega
    have hdv : digitsVal (trimZeros (renderPadNat 9 ns)) * 10^k = ns := by
      have h1 : digitsVal (renderPadNat 9 ns) = ns := by
        rw [digitsVal_renderPadNat, show (10:Nat)^9 = 1000000000 by norm_num]
        exact Nat.mod_eq_of_lt hns
      rw [hds, digitsVal_append_replicate_zero] at h1
      exact h1
    have htrimdig : ∀ x ∈ trimZeros (renderPadNat 9 ns), (parseDigit x).isSome = true :=
      fun x hx => renderPadNat_digits 9 ns x (mem_trimZeros_subset hx)
    have hne : (trimZeros (renderPadNat 9 ns)).length ≠ 0 := by
      intro hl
      rw [List.length_eq_zero.mp hl] at hdv
      simp [digitsVal] at hdv
      exact h0 hdv.symm
    show parseFrac ('.' :: (trimZeros (renderPadNat 9 ns) ++ c :: t)) = _
    have htw := takeWhile_append_all (p := fun x => (parseDigit x).isSome) c hcd t
      (trimZeros (renderPadNat 9 ns)) htrimdig
    have hkk : 9 - (trimZeros (renderPadNat 9 ns)).length = k := by omega
    simp only [parseFrac, htw, List.drop_left, if_true]
    rw [if_neg (by push_neg; exact ⟨hne, by omega⟩), hkk, hdv]

theorem parseOffset_renderOffset (off : Int) (hoff : off.natAbs ≤ 1439)
    (t : List Char) :
    parseOffset (renderOffset off ++ t) = some (off, t) := by
  by_cases h0 : off = 0
  · subst h0
    unfold renderOffset
    rw [if_pos rfl]
    show parseOffset ('Z' :: t) = some (0, t)
    simp [parseOffset]
  · unfold renderOffset
    rw [if_neg h0]
    have hh23 : off.natAbs / 60 ≤ 23 := by omega
    have hm59 : off.natAbs % 60 ≤ 59 := by omega
    have hrearr : (renderPadNat 2 (off.natAbs / 60) ++
        ':' :: renderPadNat 2 (off.natAbs % 60)) ++ t =
        renderPadNat 2 (off.natAbs / 60) ++
          (':' :: (renderPadNat 2 (off.natAbs % 60) ++ t)) := by simp
    have hp1 := parseNDigits_render 2 (off.natAbs / 60)
      (':' :: (renderPadNat 2 (off.natAbs % 60) ++ t)) (by omega)
    have hp2 := parseNDigits_render 2 (off.natAbs % 60) t (by omega)
    have hval : ((off.natAbs / 60 * 60 + off.natAbs % 60 : Nat) : Int) = off.natAbs := by
      push_cast
      omega
    by_cases hneg : off < 0
    · rw [if_pos hneg]
      show parseOffset ('-' :: ((renderPadNat 2 (off.natAbs / 60) ++
        ':' :: renderPadNat 2 (off.natAbs % 60)) ++ t)) = _
      rw [hrearr]
      simp only [parseOffset, hp1, hp2]
      simp only [or_true, true_or, if_true, if_false]
      rw [if_neg (show ¬ (('-' : Char) = 'Z') by decide),
        if_pos (show off.natAbs / 60 ≤ 23 ∧ off.natAbs % 60 ≤ 59 from ⟨hh23, hm59⟩), hval]
      simp only [Option.some.injEq, Prod.mk.injEq]
      exact ⟨by omega, trivial⟩
    · rw [if_neg hneg]
      show parseOffset ('+' :: ((renderPadNat 2 (off.natAbs / 60) ++
        ':' :: renderPadNat 2 (off.natAbs % 60)) ++ t)) = _
      rw [hrearr]
      simp only [parseOffset, hp1, hp2]
      simp only [or_true, true_or, if_true, if_false]
      rw [if_neg (show ¬ (('+' : Char) = 'Z') by decide),
        if_pos (show off.natAbs / 60 ≤ 23 ∧ off.natAbs % 60 ≤ 59 from ⟨hh23, hm59⟩),
        if_neg (show ¬ (('+' : Char) = '-') by decide), hval]
      simp only [Option.some.injEq, Prod.mk.injEq]
      exact ⟨by omega, trivial⟩

/-- The civil, clock, and zone fields an RFC 3339 string carries. -/
structure DateFields where
  year : Nat
  month : Nat
  day : Nat
  hour : Nat
  minute : Nat
  second : Nat
  nanos : Nat
  offMin : Int
deriving DecidableEq, Repr

/-- Wall-clock seconds in the time's own zone. -/
def localSeconds (t : GoTime) : Int := t.sec + t.offsetMin * 60

/-- Day count of the local date. -/
def localDay (t : GoTime) : Int := localSeconds t / 86400

/-- Seconds into the local day, in `[0, 86399]`. -/
def secOfDay (t : GoTime) : Nat := (localSeconds t % 86400).toNat

/-- The year Go `Time.Year()` reports (used by the marshal range check). -/
def goTimeYear (t : GoTime) : Int := yearOf (localDay t)

/-- The fields `Time.Format(RFC3339Nano)` prints. -/
def timeToFields (t : GoTime) : DateFields :=
  { year := (yearOf (localDay t)).toNat
    month := monthOf (localDay t)
    day := dayOf (localDay t)
    hour := secOfDay t / 3600
    minute := secOfDay t % 3600 / 60
    second := secOfDay t % 60
    nanos := t.nsec
    offMin := t.offsetMin }

/-- The instant `time.Parse(RFC3339, ...)` reconstructs from the fields. -/
def fieldsToTime (f : DateFields) : GoTime :=
  { sec := daysFromCivil (f.year : Int) f.month f.day * 86400 +
      ((f.hour * 3600 + f.minute * 60 + f.second : Nat) : Int) - f.offMin * 60
    nsec := f.nanos
    offsetMin := f.offMin }

/-- Renders the fields in the `RFC3339Nano` layout
`yyyy-mm-ddThh:mm:ss[.fraction](Z|±hh:mm)`. -/
def fieldsRender (f : DateFields) : List Char :=
  renderPadNat 4 f.year ++ ('-' :: (renderPadNat 2 f.month ++ ('-' :: (renderPadNat 2 f.day ++
    ('T' :: (renderPadNat 2 f.hour ++ (':' :: (renderPadNat 2 f.minute ++ (':' ::
    (renderPadNat 2 f.second ++ (renderFrac f.nanos ++ renderOffset f.offMin)))))))))))

/-- Models `Time.Format(time.RFC3339Nano)`. -/
def formatRFC3339Nano (t : GoTime) : List Char := fieldsRender (timeToFields t)

/-- Consume one expected character. -/
def expectChar (c : Char) : List Char → Option (List Char)
  | x :: rest => if x = c then some rest else none
  | [] => none

theorem expectChar_eq (c : Char) (rest : List Char) :
    expectChar c (c :: rest) = some rest := by
  simp [expectChar]

/-- Models `time.Parse(time.RFC3339, ...)`: the fixed layout, an optional
fractional second, a `Z` or `±hh:mm` zone, and Go's range validation of
every component (including days-in-month), reconstructing the instant. -/
def parseRFC3339core (l : List Char) : Option GoTime :=
  match parseNDigits 4 l with
  | none => none
  | some (y, r1) =>
    match expectChar '-' r1 with
    | none => none
    | some r2 =>
      match parseNDigits 2 r2 with
      | none => none
      | some (mo, r3) =>
        match expectChar '-' r3 with
        | none => none
        | some r4 =>
          match parseNDigits 2 r4 with
          | none => none
          | some (d, r5) =>
            match expectChar 'T' r5 with
            | none => none
            | some r6 =>
              match parseNDigits 2 r6 with
              | none => none
              | some (h, r7) =>
                match expectChar ':' r7 with
                | none => none
                | some r8 =>
                  match parseNDigits 2 r8 with
                  | none => none
                  | some (mi, r9) =>
                    match expectChar ':' r9 with
                    | none => none
                    | some r10 =>
                      match parseNDigits 2 r10 with
                      | none => none
                      | some (s, r11) =>
                        match parseFrac r11 with
                        | none => none
                        | some (ns, r12) =>
                          match parseOffset r12 with
                          | none => none
                          | some (off, r13) =>
                            if r13 = [] ∧ 1 ≤ mo ∧ mo ≤ 12 ∧ 1 ≤ d ∧
                                d ≤ goDaysIn mo y ∧ h ≤ 23 ∧ mi ≤ 59 ∧ s ≤ 59 then
                              some (fieldsToTime ⟨y, mo, d, h, mi, s, ns, off⟩)
                            else none

/-- Models `Time.UnmarshalJSON`: strict RFC 3339 parse of the string. -/
def parseRFC3339 (l : List Char) : Except GoError GoTime :=
  match parseRFC3339core l with
  | some t => .ok t
  | none => .error (.message "parsing time: value does not match RFC 3339 layout")

set_option maxHeartbeats 2000000 in
/-- Parsing inverts rendering on in-range fields. -/
theorem parseRFC3339core_render (f : DateFields)
    (hy : f.year < 10000) (hmo1 : 1 ≤ f.month) (hmo2 : f.month ≤ 12)
    (hd1 : 1 ≤ f.day) (hd2 : f.day ≤ goDaysIn f.month f.year)
    (hh : f.hour ≤ 23) (hmi : f.minute ≤ 59) (hs : f.second ≤ 59)
    (hns : f.nanos < 1000000000) (hoff : f.offMin.natAbs ≤ 1439) :
    parseRFC3339core (fieldsRender f) = some (fieldsToTime f) := by
  have hy4 : f.year < 10^4 := by norm_num; exact hy
  have h100 : ∀ n : Nat, n ≤ 59 → n < 10^2 := by intro n hn; norm_num; omega
  have h23 : f.hour < 10^2 := by norm_num; omega
  have h12 : f.month < 10^2 := by norm_num; omega
  have h31 : f.day < 10^2 := by
    have : goDaysIn f.month f.year ≤ 31 := by
      unfold goDaysIn
      split_ifs <;> norm_num
    norm_num
    omega
  obtain ⟨c0, t0, hro, hd0, hdot0⟩ :
      ∃ c0 t0, renderOffset f.offMin = c0 :: t0 ∧
        (parseDigit c0).isSome = false ∧ ¬(c0 = '.') := by
    unfold renderOffset
    by_cases h0 : f.offMin = 0
    · rw [if_pos h0]; exact ⟨'Z', [], rfl, by decide, by decide⟩
    · rw [if_neg h0]
      by_cases hn : f.offMin < 0
      · rw [if_pos hn]; exact ⟨'-', _, rfl, by decide, by decide⟩
      · rw [if_neg hn]; exact ⟨'+', _, rfl, by decide, by decide⟩
  have hfr : parseFrac (renderFrac f.nanos ++ renderOffset f.offMin) =
      some (f.nanos, renderOffset f.offMin) := by
    rw [hro]
    exact parseFrac_renderFrac f.nanos hns c0 hd0 hdot0 t0
  have hofp : parseOffset (renderOffset f.offMin) = some (f.offMin, []) := by
    have := parseOffset_renderOffset f.offMin hoff []
    rwa [List.append_nil] at this
  unfold parseRFC3339core fieldsRender
  set A := renderFrac f.nanos ++ renderOffset f.offMin with hA
  set t6 := renderPadNat 2 f.second ++ A with ht6
  set t5 := renderPadNat 2 f.minute ++ (':' :: t6) with ht5
  set t4 := renderPadNat 2 f.hour ++ (':' :: t5) with ht4
  set t3 := renderPadNat 2 f.day ++ ('T' :: t4) with ht3
  set t2 := renderPadNat 2 f.month ++ ('-' :: t3) with ht2
  have e1 : parseNDigits 4 (renderPadNat 4 f.year ++ ('-' :: t2)) =
      some (f.year, '-' :: t2) := parseNDigits_render 4 f.year _ hy4
  have e2 : parseNDigits 2 t2 = some (f.month, '-' :: t3) := by
    rw [ht2]; exact parseNDigits_render 2 f.month _ h12
  have e3 : parseNDigits 2 t3 = some (f.day, 'T' :: t4) := by
    rw [ht3]; exact parseNDigits_render 2 f.day _ h31
  have e4 : parseNDigits 2 t4 = some (f.hour, ':' :: t5) := by
    rw [ht4]; exact parseNDigits_render 2 f.hour _ h23
  have e5 : parseNDigits 2 t5 = some (f.minute, ':' :: t6) := by
    rw [ht5]; exact parseNDigits_render 2 f.minute _ (h100 _ hmi)
  have e6 : parseNDigits 2 t6 = some (f.second, A) := by
    rw [ht6]; exact parseNDigits_render 2 f.second _ (h100 _ hs)
  have e7 : parseFrac A = some (f.nanos, renderOffset f.offMin) := by
    rw [hA]; exact hfr
  have x1 : expectChar '-' ('-' :: t2) = some t2 := expectChar_eq _ _
  have x2 : expectChar '-' ('-' :: t3) = some t3 := expectChar_eq _ _
  have x3 : expectChar 'T' ('T' :: t4) = some t4 := expectChar_eq _ _
  have x4 : expectChar ':' (':' :: t5) = some t5 := expectChar_eq _ _
  have x5 : expectChar ':' (':' :: t6) = some t6 := expectChar_eq _ _
  simp only [parseRFC3339core, e1, x1, e2, x2, e3, x3, e4, x4, e5, x5, e6, e7, hofp]
  rw [if_pos ⟨trivial, hmo1, hmo2, hd1, hd2, hh, hmi, hs⟩]

theorem isLeapNat_toNat (y : Int) (hy : 0 ≤ y) : isLeapNat y.toNat = isLeapInt y :=
  bool_eq_of_iff (by rw [isLeapNat_iff, isLeapInt_iff]; omega)

theorem goDaysIn_toNat (m : Nat) (y : Int) (hy : 0 ≤ y) :
    goDaysIn m y.toNat = goDaysInInt m y := by
  unfold goDaysIn goDaysInInt
  rw [isLeapNat_toNat y hy]

/-- The fields printed for an in-range time satisfy every range check the
parser performs. -/
theorem timeToFields_bounds (t : GoTime)
    (hyr0 : 0 ≤ goTimeYear t) (hyr : goTimeYear t ≤ 9999) :
    (timeToFields t).year < 10000 ∧
    1 ≤ (timeToFields t).month ∧ (timeToFields t).month ≤ 12 ∧
    1 ≤ (timeToFields t).day ∧
    (timeToFields t).day ≤ goDaysIn (timeToFields t).month (timeToFields t).year ∧
    (timeToFields t).hour ≤ 23 ∧ (timeToFields t).minute ≤ 59 ∧
    (timeToFields t).second ≤ 59 := by
  have hm := civil_month_bounds (localDay t)
  have hd1 := civil_day_lower (localDay t)
  have hd2 := civil_day_upper (localDay t)
  have hsod : secOfDay t < 86400 := by unfold secOfDay; omega
  unfold goTimeYear at hyr0 hyr
  simp only [timeToFields]
  refine ⟨by omega, hm.1, hm.2, hd1, ?_, by omega, by omega, by omega⟩
  rw [goDaysIn_toNat _ _ hyr0]
  exact hd2

/-- Rebuilding the instant from the printed fields gives back the time. -/
theorem fieldsToTime_timeToFields (t : GoTime) (hyr0 : 0 ≤ goTimeYear t) :
    fieldsToTime (timeToFields t) = t := by
  obtain ⟨sec, nsec, off⟩ := t
  have hcal := daysFromCivil_civilFromDays (localDay ⟨sec, nsec, off⟩)
  have hyy : ((yearOf (localDay ⟨sec, nsec, off⟩)).toNat : Int) =
      yearOf (localDay ⟨sec, nsec, off⟩) := Int.toNat_of_nonneg hyr0
  have hsod : secOfDay ⟨sec, nsec, off⟩ < 86400 ∧
      localSeconds ⟨sec, nsec, off⟩ =
        localDay ⟨sec, nsec, off⟩ * 86400 + secOfDay ⟨sec, nsec, off⟩ := by
    unfold localDay secOfDay
    omega
  have hls : localSeconds ⟨sec, nsec, off⟩ = sec + off * 60 := rfl
  simp only [fieldsToTime, timeToFields]
  rw [hyy, hcal]
  simp only [GoTime.mk.injEq, and_true]
  omega

/-- Go `Time.Equal`: same absolute instant (zone ignored). -/
def timeEqual (a b : GoTime) : Prop := a.sec = b.sec ∧ a.nsec = b.nsec

/-- A JSON value, as far as this program's wire format needs. -/
inductive JValue where
  | str (s : String)
  | num (n : Int)
  | obj (fields : List (String × JValue))

/-- First-match field lookup in a JSON object (our marshaller emits each
key once, so this agrees with Go, which keeps the last duplicate). -/
def jsonLookup : List (String × JValue) → String → Option JValue
  | [], _ => none
  | (k, v) :: rest, key => if k = key then some v else jsonLookup rest key

/-- Models `json.Marshal` of `AWSTempCredentials`: an object with the five
tagged fields, the `Expiration` rendered by `Time.MarshalJSON`, which
fails outside year range `[0, 9999]`. -/
def marshalCreds (c : AWSTempCredentials) : Except GoError JValue :=
  if 0 ≤ goTimeYear c.Expiration ∧ goTimeYear c.Expiration ≤ 9999 then
    .ok (.obj [("Version", .num c.Version), ("AccessKeyId", .str c.AccessKeyId),
      ("SecretAccessKey", .str c.SecretAccessKey),
      ("SessionToken", .str c.SessionToken),
      ("Expiration", .str (String.mk (formatRFC3339Nano c.Expiration)))])
  else .error (.message "Time.MarshalJSON: year outside of range [0,9999]")

/-- Models `json.Unmarshal` into `AWSTempCredentials` on objects carrying
all five fields (the only shape our marshaller produces). -/
def unmarshalCreds (j : JValue) : Except GoError AWSTempCredentials :=
  match j with
  | .obj fields =>
    match jsonLookup fields "Version", jsonLookup fields "AccessKeyId",
        jsonLookup fields "SecretAccessKey", jsonLookup fields "SessionToken",
        jsonLookup fields "Expiration" with
    | some (.num v), some (.str ak), some (.str sk), some (.str st), some (.str ex) =>
      match parseRFC3339 ex.data with
      | .error e => .error e
      | .ok tm => .ok ⟨v, ak, sk, st, tm⟩
    | _, _, _, _, _ => .error (.message "json: cannot unmarshal credentials")
  | _ => .error (.message "json: cannot unmarshal credentials")

/-- The RFC 3339 round trip at the `time.Time` level. -/
theorem parseRFC3339_format (t : GoTime)
    (hns : t.nsec < 1000000000) (hoff : t.offsetMin.natAbs ≤ 1439)
    (hyr0 : 0 ≤ goTimeYear t) (hyr : goTimeYear t ≤ 9999) :
    parseRFC3339 (formatRFC3339Nano t) = .ok t := by
  have hb := timeToFields_bounds t hyr0 hyr
  have hcore := parseRFC3339core_render (timeToFields t) hb.1 hb.2.1 hb.2.2.1
    hb.2.2.2.1 hb.2.2.2.2.1 hb.2.2.2.2.2.1 hb.2.2.2.2.2.2.1 hb.2.2.2.2.2.2.2
    hns hoff
  unfold parseRFC3339 formatRFC3339Nano
  rw [hcore, fieldsToTime_timeToFields t hyr0]

/-- Claim C10: serializing an `AWSTempCredentials` value to its JSON wire
form and parsing it back yields field-for-field equality, with the
`Expiration` denoting exactly the same instant after the RFC 3339 round
trip.  The hypotheses state representability: nanoseconds below 10⁹, a
zone offset below 24 hours, and a year within `[0, 9999]` (outside which
Go `Time.MarshalJSON` refuses to serialize at all). -/
theorem c10_temp_credentials_json_round_trip (c : AWSTempCredentials)
    (hns : c.Expiration.nsec < 1000000000)
    (hoff : c.Expiration.offsetMin.natAbs ≤ 1439)
    (hyr0 : 0 ≤ goTimeYear c.Expiration) (hyr : goTimeYear c.Expiration ≤ 9999) :
    ∃ j c2, marshalCreds c = .ok j ∧ unmarshalCreds j = .ok c2 ∧
      c2.Version = c.Version ∧ c2.AccessKeyId = c.AccessKeyId ∧
      c2.SecretAccessKey = c.SecretAccessKey ∧ c2.SessionToken = c.SessionToken ∧
      timeEqual c2.Expiration c.Expiration := by
  have hparse := parseRFC3339_format c.Expiration hns hoff hyr0 hyr
  refine ⟨.obj [("Version", .num c.Version), ("AccessKeyId", .str c.AccessKeyId),
    ("SecretAccessKey", .str c.SecretAccessKey), ("SessionToken", .str c.SessionToken),
    ("Expiration", .str (String.mk (formatRFC3339Nano c.Expiration)))],
    c, ?_, ?_, rfl, rfl, rfl, rfl, ⟨rfl, rfl⟩⟩
  · unfold marshalCreds
    rw [if_pos ⟨hyr0, hyr⟩]
  · show (match parseRFC3339 (formatRFC3339Nano c.Expiration) with
      | .error e => Except.error e
      | .ok tm => Except.ok (⟨c.Version, c.AccessKeyId, c.SecretAccessKey,
          c.SessionToken, tm⟩ : AWSTempCredentials)) = Except.ok c
    rw [hparse]

set_option maxRecDepth 200000 in
/-- Witness for C10 at a concrete credential whose expiration has
nanosecond precision and a non-UTC zone. -/
theorem c10_witness :
    ∃ j c2,
      marshalCreds ⟨1, "access_key", "secret_key", "session_token",
        ⟨1718453445, 500000000, 120⟩⟩ = .ok j ∧
      unmarshalCreds j = .ok c2 ∧
      c2.Version = (1 : Int) ∧ c2.AccessKeyId = "access_key" ∧
      c2.SecretAccessKey = "secret_key" ∧ c2.SessionToken = "session_token" ∧
      timeEqual c2.Expiration ⟨1718453445, 500000000, 120⟩ :=
  c10_temp_credentials_json_round_trip
    ⟨1, "access_key", "secret_key", "session_token", ⟨1718453445, 500000000, 120⟩⟩
    (by decide) (by decide) (by decide) (by decide)

/-- Claim C1: the spec says the metadata-derived session identifier equals
`projectID ++ "-" ++ hostname` truncated to 32 characters, the full
concatenation when shorter.  The code instead evaluates the unguarded slice
`[:32]`, which panics for the spec's own example inputs project `"p"` and
host `"h"`: the claim is right about the intent and the code is a slip. -/
theorem c1_create_session_identifier_panics_on_short_metadata :
    CreateSessionIdentifier ⟨none⟩ ⟨.ok "p", .ok "h"⟩ =
      .panic "runtime error: slice bounds out of range" ∧
    CreateSessionIdentifier ⟨none⟩ ⟨.ok "p", .ok "h"⟩ ≠ .ok "p-h" := by
  decide

/-- Claim C2: with reachable metadata values, `CreateSessionIdentifier`
returns a value exactly when `len(projectID) + 1 + len(hostname) ≥ 32`,
and panics (neither value nor error) when the joined string is shorter. -/
theorem c2_create_session_identifier_total_iff_joined_length_ge_32
    (ctx : Ctx) (c : MetadataClient) (p h : String)
    (hctx : ctx.err = none) (hp : c.projectID = .ok p) (hh : c.hostname = .ok h) :
    (32 ≤ p.length + 1 + h.length →
      CreateSessionIdentifier ctx c = .ok (String.mk ((p ++ "-" ++ h).data.take 32))) ∧
    (p.length + 1 + h.length < 32 →
      CreateSessionIdentifier ctx c = .panic "runtime error: slice bounds out of range") := by
  have hlen : (p ++ "-" ++ h).length = p.length + 1 + h.length := by
    simp only [String.length_append, show ("-" : String).length = 1 from rfl]
  simp only [CreateSessionIdentifier, ProjectIDWithContext, HostnameWithContext, hctx, hp, hh]
  constructor <;> intro hL
  · rw [if_pos (show 32 ≤ (p ++ "-" ++ h).length by omega)]
  · rw [if_neg (show ¬ 32 ≤ (p ++ "-" ++ h).length by omega)]

/-- Witness for C2 at concrete inputs: project `"janus-go"`, host
`"janus-go-instance-hostname"` (joined length 35 ≥ 32) yields the
truncation, and project `"p"`, host `"h"` (joined length 3 < 32) panics. -/
theorem c2_witness :
    CreateSessionIdentifier ⟨none⟩ ⟨.ok "janus-go", .ok "janus-go-instance-hostname"⟩ =
      .ok "janus-go-janus-go-instance-hostn" ∧
    CreateSessionIdentifier ⟨none⟩ ⟨.ok "p", .ok "h"⟩ =
      .panic "runtime error: slice bounds out of range" := by
  constructor
  · have := (c2_create_session_identifier_total_iff_joined_length_ge_32
      ⟨none⟩ ⟨.ok "janus-go", .ok "janus-go-instance-hostname"⟩
      "janus-go" "janus-go-instance-hostname" rfl rfl rfl).1 (by decide)
    rw [this]; decide
  · exact (c2_create_session_identifier_total_iff_joined_length_ge_32
      ⟨none⟩ ⟨.ok "p", .ok "h"⟩ "p" "h" rfl rfl rfl).2 (by decide)

/-- Claim C3: with a live context, session-identifier resolution follows
the strict precedence flag, environment variable, metadata-derived value,
OS hostname; an error is returned only when metadata and the hostname
lookup both fail, and that error wraps the hostname-lookup cause. -/
theorem c3_get_session_identifier_precedence
    (ctx : Ctx) (flag envSessionID : String) (c : MetadataClient)
    (osHostname : Except GoError String) (hctx : ctx.err = none) :
    (flag ≠ "" → GetSessionIdentifier ctx flag c envSessionID osHostname = .ok flag) ∧
    (flag = "" → envSessionID ≠ "" →
      GetSessionIdentifier ctx flag c envSessionID osHostname = .ok envSessionID) ∧
    (flag = "" → envSessionID = "" → ∀ s, CreateSessionIdentifier ctx c = .ok s →
      GetSessionIdentifier ctx flag c envSessionID osHostname = .ok s) ∧
    (flag = "" → envSessionID = "" → ∀ e hn, CreateSessionIdentifier ctx c = .error e →
      osHostname = .ok hn →
      GetSessionIdentifier ctx flag c envSessionID osHostname = .ok hn) ∧
    (∀ e, GetSessionIdentifier ctx flag c envSessionID osHostname = .error e →
      (∃ em, CreateSessionIdentifier ctx c = .error em) ∧
      (∃ eh, osHostname = .error eh) ∧
      (∃ eh, e = .wrap "could not determine session identifier" eh)) := by
  refine ⟨?_, ?_, ?_, ?_, ?_⟩
  · intro hflag
    simp only [GetSessionIdentifier, hctx]
    rw [if_pos hflag]
  · intro hflag henv
    simp only [GetSessionIdentifier, hctx, hflag]
    rw [if_neg (by simp), if_pos henv]
  · intro hflag henv s hs
    simp only [GetSessionIdentifier, hctx, hflag, henv, hs]
    simp
  · intro hflag henv e hn hm hh
    simp only [GetSessionIdentifier, hctx, hflag, henv, hm, hh]
    simp
  · intro e he
    by_cases hflag : flag = ""
    · by_cases henv : envSessionID = ""
      · subst hflag
        subst henv
        rcases hm : CreateSessionIdentifier ctx c with s | em | msg
        · simp only [GetSessionIdentifier, hctx, hm] at he
          simp at he
        · rcases hh : osHostname with eh | hn
          · simp only [GetSessionIdentifier, hctx, hm, hh] at he
            simp at he
            exact ⟨⟨em, rfl⟩, ⟨eh, rfl⟩, ⟨eh, he.symm⟩⟩
          · simp only [GetSessionIdentifier, hctx, hm, hh] at he
            simp at he
        · simp only [GetSessionIdentifier, hctx, hm] at he
          simp at he
      · subst hflag
        simp only [GetSessionIdentifier, hctx] at he
        simp [henv] at he
    · simp only [GetSessionIdentifier, hctx] at he
      rw [if_pos hflag] at he
      simp at he

/-- Witness for C3 at concrete inputs: explicit `"X"` wins over env `"Y"`,
and with flag empty the env value `"Y"` wins. -/
theorem c3_witness :
    GetSessionIdentifier ⟨none⟩ "X" ⟨.ok "p", .ok "h"⟩ "Y" (.ok "local") = .ok "X" ∧
    GetSessionIdentifier ⟨none⟩ "" ⟨.ok "p", .ok "h"⟩ "Y" (.ok "local") = .ok "Y" := by
  constructor
  · exact (c3_get_session_identifier_precedence ⟨none⟩ "X" "Y" ⟨.ok "p", .ok "h"⟩
      (.ok "local") rfl).1 (by decide)
  · exact (c3_get_session_identifier_precedence ⟨none⟩ "" "Y" ⟨.ok "p", .ok "h"⟩
      (.ok "local") rfl).2.1 rfl (by decide)

/-- Counterexample to claim C4: a 33-character explicit flag value is
returned verbatim by `GetSessionIdentifier`, so a successfully returned
session identifier can exceed 32 characters. -/
theorem c4_counterexample_flag_longer_than_32 :
    GetSessionIdentifier ⟨none⟩ (String.mk (List.replicate 33 'a'))
        ⟨.ok "p", .ok "h"⟩ "" (.ok "local") =
      .ok (String.mk (List.replicate 33 'a')) ∧
    32 < (String.mk (List.replicate 33 'a')).length := by
  decide

/-- Claim C4 as amended: only the metadata-derived identifier is bounded —
whenever `CreateSessionIdentifier` succeeds its value is exactly 32
characters (hence at most 32); identifiers from the explicit flag, the
environment variable, or the hostname fallback are returned verbatim
without truncation. -/
theorem c4_amended_metadata_derived_identifier_le_32
    (ctx : Ctx) (c : MetadataClient) (s : String)
    (hs : CreateSessionIdentifier ctx c = .ok s) : s.length ≤ 32 := by
  rcases hctx : ctx.err with _ | e
  · rcases hp : c.projectID with ep | p
    · simp only [CreateSessionIdentifier, ProjectIDWithContext, hctx, hp] at hs
      exact absurd hs (by simp)
    · rcases hh : c.hostname with eh | h
      · simp only [CreateSessionIdentifier, ProjectIDWithContext,
          HostnameWithContext, hctx, hp, hh] at hs
        exact absurd hs (by simp)
      · simp only [CreateSessionIdentifier, ProjectIDWithContext,
          HostnameWithContext, hctx, hp, hh] at hs
        by_cases hL : 32 ≤ (p ++ "-" ++ h).length
        · rw [if_pos hL] at hs
          cases hs
          exact List.length_take_le 32 (p ++ "-" ++ h).data
        · rw [if_neg hL] at hs
          exact absurd hs (by simp)
  · simp only [CreateSessionIdentifier, ProjectIDWithContext, hctx] at hs
    exact absurd hs (by simp)

/-- Witness for amended C4: the concrete metadata-derived identifier from
project `"janus-go"` and host `"janus-go-instance-hostname"` is within the
32-character bound. -/
theorem c4_amended_witness :
    ("janus-go-janus-go-instance-hostn" : String).length ≤ 32 :=
  c4_amended_metadata_derived_identifier_le_32
    ⟨none⟩ ⟨.ok "janus-go", .ok "janus-go-instance-hostname"⟩
    "janus-go-janus-go-instance-hostn" (by decide)

/-- Claim C9: with a context that is already cancelled or timed out, both
the resolver `GetSessionIdentifier` and the metadata accessor
`ProjectIDWithContext` return exactly the context's own error (bare, not
wrapped into a metadata error), for every flag, environment, metadata
client, and hostname oracle — in particular the result does not depend on
the hostname fallback. -/
theorem c9_cancelled_context_propagates
    (ctx : Ctx) (e : CtxErr) (flag envSessionID : String) (c : MetadataClient)
    (osHostname : Except GoError String) (hctx : ctx.err = some e) :
    GetSessionIdentifier ctx flag c envSessionID osHostname = .error e.toError ∧
    ProjectIDWithContext ctx c = .error e.toError ∧
    (∀ msg cause, e.toError ≠ .wrap msg cause) := by
  refine ⟨?_, ?_, ?_⟩
  · simp only [GetSessionIdentifier, hctx]
  · simp only [ProjectIDWithContext, hctx]
  · intro msg cause
    cases e <;> simp [CtxErr.toError]

/-- Witness for C9: a cancelled context with flag `"X"`, env `"Y"`, and a
healthy metadata server still yields `context.Canceled` itself. -/
theorem c9_witness :
    GetSessionIdentifier ⟨some .canceled⟩ "X" ⟨.ok "p", .ok "h"⟩ "Y" (.ok "local") =
      .error .ctxCanceled :=
  (c9_cancelled_context_propagates ⟨some .canceled⟩ .canceled "X" "Y"
    ⟨.ok "p", .ok "h"⟩ (.ok "local") rfl).1

end Janus
